import Mathlib

/-!
# Verification of the go.redis client library

A shallow embedding of the go.redis Redis client: the RESP codec, the
connection handshake, the bounded connection pool, the pooled synchronous
client and the pipelining asynchronous client, together with proofs of the
specification's claims about them.

Byte streams are modelled as `List Char` (one `Char` per byte); machine
integers that matter (the queued-reply counter, the database index) are
modelled as `Int`/`Nat`.
-/

/-- Identifier standing for a live socket connection handle. -/
def ConnId := Nat
deriving DecidableEq

/-- The error values that can surface to a caller of this library:
transport errors (dial/write/deadline failures, surfaced verbatim),
protocol errors (malformed RESP framing), server errors (a parsed RESP
`-` reply), and the configuration error `errPoolSizeNotSpecified`. -/
inductive Err where
  | transport (msg : String)
  | protocol
  | server (msg : String)
  | poolSizeNotSpecified
deriving DecidableEq

/-- A parsed RESP reply: the closed tagged union of §3 of the spec.
`error` is a server-reported error reply (`-ERR ...`), distinct from a
transport error. -/
inductive Reply where
  | status (s : String)
  | error (s : String)
  | integer (i : Int)
  | bulk (b : List Char)
  | nil
  | array (rs : List Reply)
  | nilArray

/-- A command argument: one of the closed set of scalar kinds
{text, raw bytes, integer} accepted by the variadic Go argument list. -/
inductive Arg where
  | text (s : String)
  | bytes (b : List Char)
  | int (i : Int)
deriving DecidableEq

/-! ## Decimal rendering and parsing of numeric headers -/

/-- The decimal digit character for `d` (defined for `d < 10`). -/
def digitChar : Nat → Char
  | 0 => '0' | 1 => '1' | 2 => '2' | 3 => '3' | 4 => '4'
  | 5 => '5' | 6 => '6' | 7 => '7' | 8 => '8' | 9 => '9'
  | _ => '0'

/-- Numeric value of a decimal digit character. -/
def digitVal (c : Char) : Nat := c.toNat - 48

/-- Decimal rendering of a natural number, most significant digit first
(the rendering `strconv` produces in Go). -/
def natToDigits (n : Nat) : List Char :=
  if _h : n < 10 then [digitChar n]
  else natToDigits (n / 10) ++ [digitChar (n % 10)]
  decreasing_by exact Nat.div_lt_self (by omega) (by omega)

/-- Decimal rendering of an integer, with a leading minus sign when
negative. -/
def intToChars : Int → List Char
  | .ofNat n => natToDigits n
  | .negSucc n => '-' :: natToDigits (n + 1)

/-- Value of a digit string read left to right. -/
def digitsToNat (l : List Char) : Nat :=
  l.foldl (fun a c => a * 10 + digitVal c) 0

/-- Parse a nonempty all-digit string as a natural number. -/
def parseDigitsNat (l : List Char) : Option Nat :=
  if l ≠ [] ∧ l.all Char.isDigit then some (digitsToNat l) else none

/-- Parse an optionally minus-signed decimal integer. -/
def parseIntChars (l : List Char) : Option Int :=
  if l.head? = some '-' then (parseDigitsNat l.tail).map (fun n => -(n : Int))
  else (parseDigitsNat l).map (fun n => (n : Int))

/-! ## The RESP codec, modelled from the spec

The codec source file of the repository is not present under `src/` (only
its callers `connection.Write`, `connection.Read`, `AsyncClient.Call` are),
so `format` and the reply parser are modelled from §4.1 and §6 of the
spec. -/

/-- The CRLF line terminator. -/
def crlf : List Char := ['\r', '\n']

/-- One RESP bulk string: `$<len>\r\n<bytes>\r\n`. -/
def bulkEnc (payload : List Char) : List Char :=
  '$' :: natToDigits payload.length ++ crlf ++ payload ++ crlf

/-- The byte representation of one argument: text and bytes are passed
through, integers are rendered as decimal text. -/
def argRender : Arg → List Char
  | .text s => s.data
  | .bytes b => b
  | .int i => intToChars i

/-- Modelled from the spec: the codec's `format` function (absent from
`src/`, called by `connection.Write` and `AsyncClient.Call`). Renders a
command — the first list element is the command name — as a RESP array of
bulk strings: `*<argc>\r\n` followed by one `$<len>\r\n<bytes>\r\n` per
argument. -/
def format (args : List Arg) : List Char :=
  '*' :: natToDigits args.length ++ crlf
    ++ (args.map (fun a => bulkEnc (argRender a))).flatten

/-- Read one CRLF-terminated line: returns the line body and the rest of
the stream, or `none` if the stream ends (or a bare CR appears) before a
CRLF. -/
def readLine : List Char → Option (List Char × List Char)
  | [] => none
  | c :: rest =>
    if c = '\r' then
      match rest with
      | '\n' :: rest' => some ([], rest')
      | _ => none
    else (readLine rest).map (fun p => (c :: p.1, p.2))

mutual

/-- Modelled from the spec: the codec's RESP reply parser (absent from
`src/`, called by `connection.Read`). Reads one leading type byte and its
CRLF-terminated header, then the payload; `fuel` bounds the nesting depth
of arrays. Returns the parsed reply and the unconsumed remainder, or
`none` on malformed or truncated input. -/
def parseReply : Nat → List Char → Option (Reply × List Char)
  | 0, _ => none
  | _ + 1, [] => none
  | f + 1, c :: r =>
    if c = '+' then
      (readLine r).map (fun p => (Reply.status (String.mk p.1), p.2))
    else if c = '-' then
      (readLine r).map (fun p => (Reply.error (String.mk p.1), p.2))
    else if c = ':' then
      (readLine r).bind (fun p =>
        (parseIntChars p.1).map (fun i => (Reply.integer i, p.2)))
    else if c = '$' then
      (readLine r).bind (fun p => (parseIntChars p.1).bind (fun i =>
        if i = -1 then some (Reply.nil, p.2)
        else if 0 ≤ i then
          match p.2.drop i.toNat with
          | '\r' :: '\n' :: rest => some (Reply.bulk (p.2.take i.toNat), rest)
          | _ => none
        else none))
    else if c = '*' then
      (readLine r).bind (fun p => (parseIntChars p.1).bind (fun i =>
        if i = -1 then some (Reply.nilArray, p.2)
        else if 0 ≤ i then
          (parseMany f i.toNat p.2).map (fun q => (Reply.array q.1, q.2))
        else none))
    else none
termination_by f _ => (f, 0, 0)

/-- Parse `n` consecutive replies, in order. -/
def parseMany : Nat → Nat → List Char → Option (List Reply × List Char)
  | _, 0, s => some ([], s)
  | f, n + 1, s =>
    (parseReply f s).bind (fun p =>
      (parseMany f n p.2).map (fun q => (p.1 :: q.1, q.2)))
termination_by f n _ => (f, 1, n)

end

/-- Modelled from the spec: the codec's `Parse` entry point (absent from
`src/`). Parses one RESP message from the head of the stream; the fuel
`s.length + 1` always dominates the nesting depth, since every nesting
level consumes at least one byte. -/
def Parse (s : List Char) : Option (Reply × List Char) :=
  parseReply (s.length + 1) s

/-! ## Round-trip lemmas for the codec -/

theorem digitChar_isDigit (d : Nat) : (digitChar d).isDigit = true := by
  unfold digitChar
  split <;> decide

theorem digitVal_digitChar (d : Nat) (h : d < 10) :
    digitVal (digitChar d) = d := by
  interval_cases d <;> decide

theorem natToDigits_all_digit (n : Nat) :
    (natToDigits n).all Char.isDigit = true := by
  induction n using Nat.strong_induction_on with
  | _ n ih =>
    rw [natToDigits]
    split
    · simp [digitChar_isDigit]
    · rw [List.all_append]
      refine Bool.and_eq_true_iff.mpr ⟨ih _ (Nat.div_lt_self (by omega) (by omega)), ?_⟩
      simp [digitChar_isDigit]

theorem natToDigits_ne_nil (n : Nat) : natToDigits n ≠ [] := by
  rw [natToDigits]
  split <;> simp

theorem digitsToNat_append_digit (l : List Char) (c : Char) :
    digitsToNat (l ++ [c]) = 10 * digitsToNat l + digitVal c := by
  simp [digitsToNat, List.foldl_append]
  omega

theorem digitsToNat_natToDigits (n : Nat) :
    digitsToNat (natToDigits n) = n := by
  induction n using Nat.strong_induction_on with
  | _ n ih =>
    rw [natToDigits]
    split
    · next h =>
      simp [digitsToNat, digitVal_digitChar n h]
    · next h =>
      rw [digitsToNat_append_digit,
        ih (n / 10) (Nat.div_lt_self (by omega) (by omega)),
        digitVal_digitChar _ (Nat.mod_lt _ (by omega))]
      omega

theorem parseDigitsNat_natToDigits (n : Nat) :
    parseDigitsNat (natToDigits n) = some n := by
  rw [parseDigitsNat, if_pos ⟨natToDigits_ne_nil n, natToDigits_all_digit n⟩,
    digitsToNat_natToDigits]

theorem natToDigits_head_not_minus (n : Nat) :
    (natToDigits n).head? ≠ some '-' := by
  have hall := natToDigits_all_digit n
  intro hhead
  match hl : natToDigits n with
  | [] => rw [hl] at hhead; simp at hhead
  | c :: l =>
    rw [hl] at hhead hall
    simp only [List.head?_cons, Option.some.injEq] at hhead
    rw [List.all_cons, hhead] at hall
    simp at hall

theorem parseIntChars_natToDigits (n : Nat) :
    parseIntChars (natToDigits n) = some (n : Int) := by
  rw [parseIntChars, if_neg (natToDigits_head_not_minus n),
    parseDigitsNat_natToDigits]
  rfl

theorem natToDigits_no_cr (n : Nat) :
    ∀ c ∈ natToDigits n, c ≠ '\r' := by
  intro c hc
  have hall := natToDigits_all_digit n
  rw [List.all_eq_true] at hall
  have := hall c hc
  intro hcr
  rw [hcr] at this
  simp at this

theorem readLine_append (l rest : List Char) (h : ∀ c ∈ l, c ≠ '\r') :
    readLine (l ++ '\r' :: '\n' :: rest) = some (l, rest) := by
  induction l with
  | nil => simp [readLine]
  | cons c l ih =>
    have hc : c ≠ '\r' := h c (List.mem_cons_self c l)
    have ih' := ih (fun x hx => h x (List.mem_cons_of_mem c hx))
    simp [readLine, hc, ih']

theorem parseReply_bulkEnc (f : Nat) (payload rest : List Char) :
    parseReply (f + 1) (bulkEnc payload ++ rest)
      = some (Reply.bulk payload, rest) := by
  have hshape : bulkEnc payload ++ rest
      = '$' :: (natToDigits payload.length
          ++ '\r' :: '\n' :: (payload ++ '\r' :: '\n' :: rest)) := by
    simp [bulkEnc, crlf]
  have hline := readLine_append (natToDigits payload.length)
    (payload ++ '\r' :: '\n' :: rest) (natToDigits_no_cr _)
  rw [hshape, parseReply]
  rw [if_neg (show ¬ ('$' : Char) = '+' by decide),
    if_neg (show ¬ ('$' : Char) = '-' by decide),
    if_neg (show ¬ ('$' : Char) = ':' by decide),
    if_pos rfl]
  rw [hline]
  simp only [Option.some_bind, parseIntChars_natToDigits]
  rw [if_neg (by omega), if_pos (by omega)]
  simp [Int.toNat_natCast, List.drop_left, List.take_left]

theorem parseMany_bulks (f : Nat) (ps : List (List Char)) (rest : List Char) :
    parseMany (f + 1) ps.length ((ps.map bulkEnc).flatten ++ rest)
      = some (ps.map Reply.bulk, rest) := by
  induction ps generalizing rest with
  | nil => simp [parseMany]
  | cons p ps ih =>
    rw [List.map_cons, List.flatten_cons, List.length_cons, List.append_assoc,
      parseMany, parseReply_bulkEnc, Option.some_bind, ih]
    rfl

theorem parseReply_format (f : Nat) (args : List Arg) :
    parseReply (f + 2) (format args)
      = some (Reply.array (args.map (fun a => Reply.bulk (argRender a))), []) := by
  have hshape : format args
      = '*' :: (natToDigits args.length
          ++ '\r' :: '\n' :: (((args.map argRender).map bulkEnc).flatten ++ [])) := by
    simp [format, crlf, List.map_map, Function.comp_def]
  have hline := readLine_append (natToDigits args.length)
    (((args.map argRender).map bulkEnc).flatten ++ []) (natToDigits_no_cr _)
  rw [hshape, parseReply]
  rw [if_neg (show ¬ ('*' : Char) = '+' by decide),
    if_neg (show ¬ ('*' : Char) = '-' by decide),
    if_neg (show ¬ ('*' : Char) = ':' by decide),
    if_neg (show ¬ ('*' : Char) = '$' by decide),
    if_pos rfl]
  rw [hline]
  simp only [Option.some_bind, parseIntChars_natToDigits]
  rw [if_neg (by omega), if_pos (by omega)]
  rw [show ((args.length : Int)).toNat = (args.map argRender).length by simp,
    parseMany_bulks]
  simp [List.map_map, Function.comp_def]

theorem Parse_format (args : List Arg) :
    Parse (format args)
      = some (Reply.array (args.map (fun a => Reply.bulk (argRender a))), []) := by
  have h1 : 1 ≤ (format args).length := by
    rw [format]
    simp
  rw [Parse, show (format args).length + 1 = ((format args).length - 1) + 2 by omega,
    parseReply_format]

/-! ## Connection: `connection.Read` and `NewConn` (src/connection.go)

`connection.Read` (lines 75-81) runs `Parse` on the buffered reader and
returns `reply.Err` when it is set. The `Err` field discipline of the
parsed reply comes from the codec, which is absent from `src/`; per the
spec (§4.1, §4.2), `Err` is set on malformed framing (a protocol error)
and on a parsed `-` error reply (a server error carrying its text). -/

/-- `connection.Read`: parse one reply from the stream `s`; a parse
failure surfaces as a protocol error, a parsed `Error` reply surfaces as
a call-level `Err.server` error carrying the server's text, anything else
is returned as a successful Reply. -/
def connRead (s : List Char) : Except Err Reply :=
  match Parse s with
  | none => .error .protocol
  | some (.error m, _) => .error (.server m)
  | some (r, _) => .ok r

/-- Is this reply the server-error variant? -/
def Reply.isErrorReply : Reply → Bool
  | .error _ => true
  | _ => false

/-- A command as written on a connection: its name and its arguments. -/
abbrev RCommand := String × List Arg

/-- The external events `NewConn` depends on: the dial outcome, the
transport outcome of each handshake write, and the reply bytes available
for each handshake read. -/
structure HandshakeWorld where
  dial : Except Err ConnId
  authWriteErr : Option Err
  authStream : List Char
  selWriteErr : Option Err
  selStream : List Char

/-- The `SELECT` half of the handshake in `NewConn`
(src/connection.go lines 62-71): issued only when `db ≠ 0`; a write error
or a failed/`Error` reply aborts creation. Returns the outcome and the
log of commands written on the socket. -/
def selectPhase (conn : ConnId) (db : Int) (log : List RCommand)
    (w : HandshakeWorld) : Except Err ConnId × List RCommand :=
  if db ≠ 0 then
    let log2 := log ++ [("SELECT", [Arg.int db])]
    match w.selWriteErr with
    | some e => (.error e, log2)
    | none =>
      match connRead w.selStream with
      | .error e => (.error e, log2)
      | .ok _ => (.ok conn, log2)
  else (.ok conn, log)

/-- `NewConn` (src/connection.go lines 46-73): dial, then `AUTH` iff the
password is non-empty, then `SELECT` iff `db ≠ 0`; each step's failure is
returned and no connection is handed out. Returns the outcome and the log
of commands written on the socket. -/
def newConn (db : Int) (password : String) (w : HandshakeWorld) :
    Except Err ConnId × List RCommand :=
  match w.dial with
  | .error e => (.error e, [])
  | .ok conn =>
    if password ≠ "" then
      let log1 := [(("AUTH" : String), [Arg.text password])]
      match w.authWriteErr with
      | some e => (.error e, log1)
      | none =>
        match connRead w.authStream with
        | .error e => (.error e, log1)
        | .ok _ => selectPhase conn db log1 w
    else selectPhase conn db [] w

/-! ## The connection pool (src/unnamed/part_002)

`connPool` is a buffered channel of capacity `max`, pre-seeded with `max`
nil placeholders; `pop` receives from it, `push` sends to it. The channel
buffer is modelled as a FIFO list of `Option ConnId` slots (`none` is the
nil placeholder); `checkedOut` counts values popped and not yet pushed
back. The pop/push discipline of the clients (every push is preceded by a
matching pop) is captured by the push transition being enabled only when
something is checked out. -/

structure PoolState where
  free : List (Option ConnId)
  checkedOut : Nat

/-- `newConnPool max`: a channel of capacity `max` holding `max` nil
placeholders, nothing checked out. -/
def newConnPool (max : Nat) : PoolState :=
  ⟨List.replicate max none, 0⟩

/-- One pool operation: `pop` receives the oldest slot from the channel
(enabled only when the buffer is non-empty — otherwise the receive
blocks); `push` sends a slot back (under the clients' discipline it only
happens for a previously popped slot, i.e. when something is checked
out). -/
inductive PoolStep : PoolState → PoolState → Prop
  | pop (slot : Option ConnId) (rest : List (Option ConnId)) (k : Nat) :
      PoolStep ⟨slot :: rest, k⟩ ⟨rest, k + 1⟩
  | push (c : Option ConnId) (q : List (Option ConnId)) (k : Nat) :
      PoolStep ⟨q, k + 1⟩ ⟨q ++ [c], k⟩

/-- States of the pool reachable from the freshly constructed pool by
pop/push operations. -/
def PoolReachable (max : Nat) (s : PoolState) : Prop :=
  Relation.ReflTransGen PoolStep (newConnPool max) s

/-! ## The pooled synchronous client (src/unnamed/part_001)

`Client.Call` and `Client.connect`. The pool field is the channel's
buffer; `none` is Go's nil channel (the pool not yet created). The
network is abstracted by a `SyncWorld` giving the outcome of each
external step. A computation that blocks forever (a receive or send on a
nil channel, or a receive from an empty buffer with no concurrent
sender) is the `blocked` outcome. -/

structure SyncClient where
  poolSize : Nat
  pool : Option (List (Option ConnId))

/-- Outcomes of external steps during one `Client.Call`. -/
structure SyncWorld where
  dial : Except Err ConnId
  deadlineErr : Option Err
  writeErr : Option Err
  readResult : Except Err Reply

/-- Result of a `Call` that returned: the reply/error pair handed to the
caller, the pool buffer after the call, and how many pushes the call
completed. -/
structure CallRes where
  reply : Option Reply
  err : Option Err
  pool : List (Option ConnId)
  pushes : Nat

/-- A computation seen from its caller: it either returns or blocks
forever. -/
inductive Outcome (α : Type) where
  | blocked
  | done (a : α)
deriving DecidableEq

/-- `Client.connect` (src/unnamed/part_001 lines 60-82): on first use,
fail fast if `PoolSize` is zero, else create the pool filled with
`PoolSize` nil placeholders; then pop a slot, dialing a fresh connection
for a nil placeholder. Returns the connect outcome together with the
buffer after the pop (`none` while the pool channel is still nil). -/
def clientConnect (c : SyncClient) (w : SyncWorld) :
    Outcome (Except Err ConnId × Option (List (Option ConnId))) :=
  match c.pool with
  | none =>
    if c.poolSize = 0 then .done (.error .poolSizeNotSpecified, none)
    else
      match List.replicate c.poolSize (none : Option ConnId) with
      | [] => .blocked
      | slot :: rest =>
        match slot with
        | some conn => .done (.ok conn, some rest)
        | none =>
          match w.dial with
          | .ok conn => .done (.ok conn, some rest)
          | .error e => .done (.error e, some rest)
  | some [] => .blocked
  | some (slot :: rest) =>
    match slot with
    | some conn => .done (.ok conn, some rest)
    | none =>
      match w.dial with
      | .ok conn => .done (.ok conn, some rest)
      | .error e => .done (.error e, some rest)

/-- `Client.Call` (src/unnamed/part_001 lines 26-57): connect, with a
deferred unconditional push of `conn` registered before the error check;
then set the deadline, write the command, read the reply, each failure
returning early. The deferred push runs on every return path; pushing on
the still-nil pool channel blocks forever. -/
def clientCall (c : SyncClient) (w : SyncWorld) : Outcome CallRes :=
  match clientConnect c w with
  | .blocked => .blocked
  | .done (.error e, pool?) =>
    match pool? with
    | none => .blocked
    | some pool =>
      .done { reply := none, err := some e, pool := pool ++ [none], pushes := 1 }
  | .done (.ok conn, pool?) =>
    match pool? with
    | none => .blocked
    | some pool =>
      match w.deadlineErr with
      | some e =>
        .done { reply := none, err := some e, pool := pool ++ [some conn], pushes := 1 }
      | none =>
        match w.writeErr with
        | some e =>
          .done { reply := none, err := some e, pool := pool ++ [some conn], pushes := 1 }
        | none =>
          match w.readResult with
          | .error e =>
            .done { reply := none, err := some e, pool := pool ++ [some conn], pushes := 1 }
          | .ok r =>
            .done { reply := some r, err := none, pool := pool ++ [some conn], pushes := 1 }

/-! ## The asynchronous pipelining client (src/redis.go) -/

/-- The mutable state of an `AsyncClient`: the output buffer of encoded
but unsent commands, the lazily created private connection, and the
queued-reply counter (a Go `int`). -/
structure AsyncState where
  buf : List Char
  conn : Option ConnId
  queued : Int

/-- External outcomes one `AsyncClient.Read` invocation depends on: the
dial outcome (used only when no connection exists), the outcome of
flushing the buffer (used only when the buffer is non-empty; on failure
`flushed` bytes had already been consumed from the buffer), and the
outcome of `conn.Read()`. -/
structure AsyncWorld where
  dial : Except Err ConnId
  flushErr : Option Err
  flushed : Nat
  readResult : Except Err Reply

/-- `AsyncClient.Call` (src/redis.go lines 124-128): append the encoded
command to the output buffer, then increment the queued counter
unconditionally, returning the append error if any. `bufWriteErr` is the
error `bytes.Buffer.Write` would return (the code propagates it even
though `bytes.Buffer` never produces one); on that error case nothing is
buffered. -/
def asyncCall (s : AsyncState) (args : List Arg) (bufWriteErr : Option Err) :
    Option Err × AsyncState :=
  match bufWriteErr with
  | some e => (some e, { s with queued := s.queued + 1 })
  | none => (none, { s with buf := s.buf ++ format args, queued := s.queued + 1 })

/-- Steps 2 and 3 of `AsyncClient.Read`: flush the buffer if non-empty,
then read one reply and decrement the counter. -/
def asyncReadFlush (s : AsyncState) (w : AsyncWorld) :
    Except Err Reply × AsyncState :=
  if 0 < s.buf.length then
    match w.flushErr with
    | some e => (.error e, { s with buf := s.buf.drop w.flushed })
    | none =>
      (w.readResult, { s with buf := [], queued := s.queued - 1 })
  else
    (w.readResult, { s with queued := s.queued - 1 })

/-- `AsyncClient.Read` (src/redis.go lines 137-159): dial the private
connection if absent (returning the dial error without touching the
counter); flush the buffer if non-empty (returning the flush error
without touching the counter); then read one reply and decrement the
queued counter even when the read failed. -/
def asyncRead (s : AsyncState) (w : AsyncWorld) : Except Err Reply × AsyncState :=
  match s.conn with
  | none =>
    match w.dial with
    | .error e => (.error e, s)
    | .ok c => asyncReadFlush { s with conn := some c } w
  | some _ => asyncReadFlush s w

/-- `AsyncClient.Queued` (src/redis.go lines 161-163). -/
def asyncQueued (s : AsyncState) : Int := s.queued

/-- The loop body of `AsyncClient.ReadAll` (src/redis.go lines 165-179):
while `Queued() > 0`, call `Read`; on the first error return it (and no
replies); otherwise append the reply. `fuel` is an upper bound on the
number of iterations; `k` indexes the per-invocation worlds `ws`. -/
def readAllLoop (fuel : Nat) (s : AsyncState) (ws : Nat → AsyncWorld)
    (k : Nat) (acc : List Reply) : Except Err (List Reply) × AsyncState :=
  match fuel with
  | 0 => (.ok acc, s)
  | fuel + 1 =>
    if 0 < asyncQueued s then
      match asyncRead s (ws k) with
      | (.error e, s') => (.error e, s')
      | (.ok r, s') => readAllLoop fuel s' ws (k + 1) (acc ++ [r])
    else (.ok acc, s)

/-- `AsyncClient.ReadAll`: the loop starting from the empty reply list.
The fuel `s.queued.toNat` is exact: the loop runs while `queued > 0` and
every completed `Read` that continues the loop decremented `queued`. -/
def asyncReadAll (s : AsyncState) (ws : Nat → AsyncWorld) :
    Except Err (List Reply) × AsyncState :=
  readAllLoop s.queued.toNat s ws 0 []

/-- `AsyncClient.Close` (src/redis.go lines 183-186): call `Close` on
the private connection and clear it. When no connection exists the
receiver of `ac.conn.Close()` is a nil interface and the call panics:
modelled as `none`. -/
def asyncClose (s : AsyncState) : Option AsyncState :=
  match s.conn with
  | none => none
  | some _ => some { s with conn := none }

/-! ## Claims -/

/-- C8: for every command name and every sequence of text/byte/integer
arguments, the encoder produces exactly the RESP array-of-bulk-strings
form `*<argc+1>\r\n$<len>\r\n<commandName>\r\n` followed by
`$<len>\r\n<bytes>\r\n` per argument (integers rendered as decimal text),
and parsing that encoding back as a RESP array of bulk strings reproduces
the original command name and arguments byte-for-byte. -/
theorem format_encode_roundtrip (cmd : String) (args : List Arg) :
    format (Arg.text cmd :: args)
      = '*' :: natToDigits (args.length + 1) ++ crlf
          ++ bulkEnc cmd.data
          ++ (args.map (fun a => bulkEnc (argRender a))).flatten
    ∧ Parse (format (Arg.text cmd :: args))
      = some (Reply.array (Reply.bulk cmd.data
            :: args.map (fun a => Reply.bulk (argRender a))), []) := by
  constructor
  · simp [format, argRender]
  · rw [Parse_format]
    simp [argRender]

/-- C5: `connection.Read` returns the parsed value as a successful Reply
only when it is not an Error variant; when the parsed RESP message is an
Error reply (leading `-`), Read returns it as a call-level error carrying
the server's error text, never as a successful Reply. -/
theorem connRead_never_ok_error (s : List Char) :
    (∀ r, connRead s = .ok r → r.isErrorReply = false)
    ∧ (∀ m rest, Parse s = some (Reply.error m, rest)
        → connRead s = .error (.server m)) := by
  constructor
  · intro r hr
    rcases hP : Parse s with _ | ⟨r', rest'⟩
    · simp [connRead, hP] at hr
    · cases r' <;> simp [connRead, hP] at hr <;>
        simp [← hr, Reply.isErrorReply]
  · intro m rest h
    simp [connRead, h]

/-- Witness for C5 at the spec's own examples: the stream `+OK\r\n`
yields the non-error status reply, and the stream `-ERR bad\r\n` is
turned into the call-level server error. -/
theorem connRead_never_ok_error_witness :
    (Reply.status "OK").isErrorReply = false
    ∧ connRead ("-ERR bad\r\n".data) = .error (.server "ERR bad") :=
  ⟨(connRead_never_ok_error ("+OK\r\n".data)).1 (Reply.status "OK") (by
      simp [connRead, Parse, parseReply, readLine]),
   (connRead_never_ok_error ("-ERR bad\r\n".data)).2 "ERR bad" [] (by
      simp [Parse, parseReply, readLine])⟩

/-- C1: for a connection pool constructed with capacity K, at most K
connections are ever checked out at the same time; the channel buffer
plus the checked-out count always equals K, a pop is enabled (does not
block) exactly when fewer than K are checked out, and under the
pop-before-push discipline a push always finds the buffer below capacity,
so a push (release) never blocks. -/
theorem connPool_capacity (K : Nat) (s : PoolState)
    (h : PoolReachable K s) :
    s.free.length + s.checkedOut = K
    ∧ s.checkedOut ≤ K
    ∧ (0 < s.checkedOut → s.free.length < K)
    ∧ (s.free = [] ↔ s.checkedOut = K) := by
  have hinv : s.free.length + s.checkedOut = K := by
    induction h with
    | refl => simp [newConnPool]
    | tail hsteps step ih =>
      cases step with
      | pop slot rest k => simp at ih ⊢; omega
      | push c q k => simp at ih ⊢; omega
  refine ⟨hinv, by omega, fun _ => by omega, ?_, fun hk => ?_⟩
  · intro he
    rw [he] at hinv
    simpa using hinv
  · have : s.free.length = 0 := by omega
    exact List.length_eq_zero.mp this

/-- Witness for C1 at K = 2, in the state reached by checking out both
placeholder slots: the buffer is empty, both slots are checked out, and
the invariants hold. -/
theorem connPool_capacity_witness :
    (PoolState.mk [] 2).free.length + (PoolState.mk [] 2).checkedOut = 2
    ∧ (PoolState.mk [] 2).checkedOut ≤ 2
    ∧ (0 < (PoolState.mk [] 2).checkedOut → (PoolState.mk [] 2).free.length < 2)
    ∧ ((PoolState.mk [] 2).free = [] ↔ (PoolState.mk [] 2).checkedOut = 2) :=
  connPool_capacity 2 ⟨[], 2⟩
    (Relation.ReflTransGen.tail
      (Relation.ReflTransGen.tail Relation.ReflTransGen.refl
        (PoolStep.pop none [none] 0))
      (PoolStep.pop none [] 1))

/-- C4 (code bug): on a client whose pool size is zero, `Call` computes
`errPoolSizeNotSpecified` without touching the network, but never
returns it: the release `defer` was registered before the error check,
and its send on the still-nil pool channel blocks forever. This holds for
every world, i.e. no network step is even consulted. -/
theorem clientCall_poolSizeZero_blocks (w : SyncWorld) :
    clientCall ⟨0, none⟩ w = Outcome.blocked := rfl

/-- C3 counterexample: it is not the case that every invocation of
`Client.Call` pushes exactly one value back to the pool before
returning: with pool size zero the call blocks forever in the deferred
push on the nil pool channel and never returns at all. -/
theorem clientCall_pushes_once_cex :
    ¬ ∃ res, clientCall ⟨0, none⟩
        ⟨.error (.transport "unused"), none, none, .ok Reply.nil⟩ = .done res
      ∧ res.pushes = 1 := by
  rintro ⟨res, hres, -⟩
  rw [show clientCall ⟨0, none⟩
      ⟨.error (.transport "unused"), none, none, .ok Reply.nil⟩
      = Outcome.blocked from rfl] at hres
  cases hres

/-- Helper for C3: whenever `connect` does not hit the nil-pool
configuration path and the pop does not block, it returns with the pool
channel holding one slot fewer than its pre-call occupancy. -/
theorem clientConnect_done (c : SyncClient) (w : SyncWorld)
    (hsize : c.pool = none → 0 < c.poolSize)
    (hfree : ∀ l, c.pool = some l → l ≠ []) :
    ∃ res pool, clientConnect c w = .done (res, some pool)
      ∧ pool.length + 1
          = (match c.pool with | none => c.poolSize | some l => l.length) := by
  rcases hc : c.pool with _ | l
  · have hK : 0 < c.poolSize := hsize hc
    obtain ⟨K, hK'⟩ : ∃ K, c.poolSize = K + 1 := ⟨c.poolSize - 1, by omega⟩
    rcases hd : w.dial with e | conn
    · refine ⟨.error e, List.replicate K none, ?_, by simp [hK']⟩
      simp [clientConnect, hc, hK', List.replicate_succ, hd]
    · refine ⟨.ok conn, List.replicate K none, ?_, by simp [hK']⟩
      simp [clientConnect, hc, hK', List.replicate_succ, hd]
  · match l, hfree l hc with
    | slot :: rest, _ =>
      rcases slot with _ | conn
      · rcases hd : w.dial with e | conn
        · exact ⟨.error e, rest, by simp [clientConnect, hc, hd], by simp⟩
        · exact ⟨.ok conn, rest, by simp [clientConnect, hc, hd], by simp⟩
      · exact ⟨.ok conn, rest, by simp [clientConnect, hc], by simp⟩

/-- C3 (amended): for every invocation of `Client.Call` on a client whose
pool channel exists or whose pool size is non-zero (i.e. the acquire step
does not hit the nil-pool configuration path), and whose acquire does not
block, exactly one value is pushed back to the pool before Call returns on
every exit path — acquire-dial, deadline-set, write and read failures
included — so a failed call still returns its (possibly broken or nil)
connection slot and the pool's slot count is preserved. (The unamended
claim fails only on the pool-size-zero path, where the deferred push on
the nil channel blocks forever; see the counterexample.) -/
theorem clientCall_pushes_once (c : SyncClient) (w : SyncWorld)
    (hsize : c.pool = none → 0 < c.poolSize)
    (hfree : ∀ l, c.pool = some l → l ≠ []) :
    ∃ res, clientCall c w = .done res ∧ res.pushes = 1
      ∧ res.pool.length
          = (match c.pool with | none => c.poolSize | some l => l.length) := by
  obtain ⟨cres, pool, hconn, hlen⟩ := clientConnect_done c w hsize hfree
  rcases cres with e | conn
  · refine ⟨⟨none, some e, pool ++ [none], 1⟩, ?_, rfl, by simpa using hlen⟩
    simp [clientCall, hconn]
  · rcases hdl : w.deadlineErr with _ | e
    · rcases hw : w.writeErr with _ | e
      · rcases hr : w.readResult with e | r
        · refine ⟨⟨none, some e, pool ++ [some conn], 1⟩, ?_, rfl,
            by simpa using hlen⟩
          simp [clientCall, hconn, hdl, hw, hr]
        · refine ⟨⟨some r, none, pool ++ [some conn], 1⟩, ?_, rfl,
            by simpa using hlen⟩
          simp [clientCall, hconn, hdl, hw, hr]
      · refine ⟨⟨none, some e, pool ++ [some conn], 1⟩, ?_, rfl,
          by simpa using hlen⟩
        simp [clientCall, hconn, hdl, hw]
    · refine ⟨⟨none, some e, pool ++ [some conn], 1⟩, ?_, rfl,
        by simpa using hlen⟩
      simp [clientCall, hconn, hdl]

/-- Witness for C3 (amended): a fresh client with pool size 2 whose dial
succeeds: the call returns, pushed exactly once, and the pool holds 2
slots again. -/
theorem clientCall_pushes_once_witness :
    ∃ res, clientCall ⟨2, none⟩
        ⟨.ok (7 : Nat), none, none, .ok (Reply.status "OK")⟩ = .done res
      ∧ res.pushes = 1
      ∧ res.pool.length
          = (match (none : Option (List (Option ConnId))) with
              | none => 2 | some l => l.length) :=
  clientCall_pushes_once ⟨2, none⟩
    ⟨.ok (7 : Nat), none, none, .ok (Reply.status "OK")⟩
    (fun _ => by decide) (fun l hl => by cases hl)

/-- Does this dial outcome carry a connection? -/
def dialOk : Except Err ConnId → Bool
  | .ok _ => true
  | .error _ => false

/-- Does this invocation of `AsyncClient.Read` get past its dial and
flush steps to the final reply-read step? -/
def readReached (s : AsyncState) (w : AsyncWorld) : Bool :=
  (s.conn.isSome || dialOk w.dial)
    && (decide (s.buf.length = 0) || w.flushErr.isNone)

/-- C2 counterexample: a `Read` on a client with one queued command and
no connection whose dial fails returns the dial error with the
queued-reply counter unchanged at 1, not decremented to 0 as the claim
requires of every returning `Read`. -/
theorem asyncRead_decrements_cex :
    ¬ ((asyncRead ⟨[], none, 1⟩
          ⟨.error (.transport "refused"), none, 0, .ok Reply.nil⟩).2.queued
        = 1 - 1) := by
  intro h
  rw [show (asyncRead ⟨[], none, 1⟩
      ⟨.error (.transport "refused"), none, 0, .ok Reply.nil⟩).2.queued
      = (1 : Int) from rfl] at h
  exact absurd h (by decide)

/-- C2 (amended): `AsyncClient.Read` decrements the queued-reply counter
by exactly one precisely on the invocations that reach the final
reply-read step — in particular a failure to read/parse the reply still
decrements — while an invocation that returns early, on a failure to
dial the lazy connection or to flush the output buffer, leaves the
counter unchanged. -/
theorem asyncRead_decrements (s : AsyncState) (w : AsyncWorld) :
    (asyncRead s w).2.queued
      = if readReached s w then s.queued - 1 else s.queued := by
  obtain ⟨buf, conn, queued⟩ := s
  rcases conn with _ | c
  · rcases hd : w.dial with e | c <;>
      rcases hf : w.flushErr with _ | e' <;>
        by_cases hb : buf.length = 0 <;>
          simp_all [asyncRead, asyncReadFlush, readReached, dialOk,
            List.length_eq_zero, List.length_pos]
  · rcases hf : w.flushErr with _ | e' <;>
      by_cases hb : buf.length = 0 <;>
        simp_all [asyncRead, asyncReadFlush, readReached, dialOk,
          List.length_eq_zero, List.length_pos]

/-- C9: `AsyncClient.Call` increments the queued-reply counter by exactly
one unconditionally, returning the buffer-append error unchanged; in the
error case (in which nothing was buffered) the counter is incremented
anyway, so `Queued()` then exceeds the number of commands actually in the
buffer. -/
theorem asyncCall_increments (s : AsyncState) (args : List Arg)
    (bufWriteErr : Option Err) :
    (asyncCall s args bufWriteErr).2.queued = s.queued + 1
    ∧ (asyncCall s args bufWriteErr).1 = bufWriteErr
    ∧ (bufWriteErr.isSome → (asyncCall s args bufWriteErr).2.buf = s.buf) := by
  cases bufWriteErr <;> simp [asyncCall]

/-- Witness for C9: a failed `Call` on a fresh client leaves the buffer
empty but the counter at 1. -/
theorem asyncCall_increments_witness :
    (asyncCall ⟨[], none, 0⟩ [Arg.text "PING"] (some Err.protocol)).2.queued
      = 0 + 1
    ∧ (asyncCall ⟨[], none, 0⟩ [Arg.text "PING"] (some Err.protocol)).1
      = some Err.protocol
    ∧ (asyncCall ⟨[], none, 0⟩ [Arg.text "PING"] (some Err.protocol)).2.buf
      = [] :=
  ⟨(asyncCall_increments ⟨[], none, 0⟩ [Arg.text "PING"] (some Err.protocol)).1,
   (asyncCall_increments ⟨[], none, 0⟩ [Arg.text "PING"] (some Err.protocol)).2.1,
   (asyncCall_increments ⟨[], none, 0⟩ [Arg.text "PING"] (some Err.protocol)).2.2
     (by decide)⟩

/-- C10: `AsyncClient.Close` requires a live private connection: with no
connection (none was ever dialed, or `Close` already ran and cleared the
reference) the method call on the nil connection panics (`none` in the
model) instead of acting as a no-op, so `Close` is not idempotent: a
second `Close` after a successful one panics. -/
theorem asyncClose_not_idempotent (s : AsyncState) :
    (s.conn = none → asyncClose s = none)
    ∧ (∀ c, s.conn = some c →
        asyncClose s = some { s with conn := none }
          ∧ asyncClose { s with conn := none } = none) := by
  obtain ⟨buf, conn, queued⟩ := s
  cases conn <;> simp [asyncClose]

/-- Witness for C10: closing a client holding connection 7 succeeds and
clears it; closing either client without a connection panics. -/
theorem asyncClose_not_idempotent_witness :
    asyncClose ⟨[], none, 0⟩ = none
    ∧ (asyncClose ⟨[], some (7 : Nat), 0⟩ = some ⟨[], none, 0⟩
        ∧ asyncClose ⟨[], none, 0⟩ = none) :=
  ⟨(asyncClose_not_idempotent ⟨[], none, 0⟩).1 rfl,
   (asyncClose_not_idempotent ⟨[], some (7 : Nat), 0⟩).2 (7 : Nat) rfl⟩

/-- Helper for C6: when the dial step succeeds (or is unnecessary) and
the flush step does not fail, `asyncRead` passes `conn.Read()`'s outcome
through and decrements the counter, leaving an empty buffer. -/
theorem asyncRead_through (s : AsyncState) (w : AsyncWorld)
    (hd : dialOk w.dial = true) (hf : w.flushErr = none) :
    ∃ c, asyncRead s w = (w.readResult, ⟨[], some c, s.queued - 1⟩) := by
  obtain ⟨buf, conn, queued⟩ := s
  rcases conn with _ | c
  · rcases hdl : w.dial with e | c
    · rw [hdl] at hd
      simp [dialOk] at hd
    · refine ⟨c, ?_⟩
      by_cases hb : buf = [] <;>
        simp_all [asyncRead, asyncReadFlush, List.length_pos]
  · refine ⟨c, ?_⟩
    by_cases hb : buf = [] <;>
      simp_all [asyncRead, asyncReadFlush, List.length_pos]

/-- Helper for C6: when every one of the `n` pending reads goes through
with a successful reply, the `ReadAll` loop returns all of them appended
to the accumulator, in issue order, and drains the counter to zero. -/
theorem readAllLoop_ok (f : Nat → Reply) (ws : Nat → AsyncWorld) :
    ∀ (n : Nat) (s : AsyncState) (k : Nat) (acc : List Reply),
      s.queued = (n : Int) →
      (∀ i, i < n → dialOk (ws (k + i)).dial = true
        ∧ (ws (k + i)).flushErr = none
        ∧ (ws (k + i)).readResult = .ok (f (k + i))) →
      ∃ s', readAllLoop n s ws k acc
          = (.ok (acc ++ (List.range n).map (fun j => f (k + j))), s')
        ∧ s'.queued = 0 := by
  intro n
  induction n with
  | zero =>
    intro s k acc hq hsucc
    exact ⟨s, by simp [readAllLoop], hq⟩
  | succ n ih =>
    intro s k acc hq hsucc
    obtain ⟨hd, hf, hr⟩ := hsucc 0 (by omega)
    rw [Nat.add_zero] at hd hf hr
    obtain ⟨c, hread⟩ := asyncRead_through s (ws k) hd hf
    rw [hr] at hread
    have hq' : (⟨[], some c, s.queued - 1⟩ : AsyncState).queued = (n : Int) := by
      simp [hq]
    obtain ⟨s', hs', hzero⟩ := ih ⟨[], some c, s.queued - 1⟩ (k + 1) (acc ++ [f k])
      hq' (fun i hi => by
        have := hsucc (i + 1) (by omega)
        rwa [show k + (i + 1) = k + 1 + i by omega] at this)
    refine ⟨s', ?_, hzero⟩
    rw [readAllLoop, if_pos (by rw [asyncQueued, hq]; exact_mod_cast Nat.succ_pos n),
      hread]
    show readAllLoop n ⟨[], some c, s.queued - 1⟩ ws (k + 1) (acc ++ [f k]) = _
    rw [hs']
    congr 1
    congr 1
    rw [List.range_succ_eq_map, List.map_cons, List.map_map, List.append_assoc]
    congr 1
    rw [List.singleton_append]
    congr 1
    exact List.map_congr_left (fun j _ => by
      simp [Function.comp]
      congr 1
      omega)

/-- The state of an `AsyncClient` after `i` further invocations of
`Read` starting from `s`, invocation number `i` drawing on world
`ws (k0 + i)` — the states the `ReadAll` loop actually passes through. -/
def readState (s : AsyncState) (ws : Nat → AsyncWorld) (k0 : Nat) :
    Nat → AsyncState
  | 0 => s
  | i + 1 => (asyncRead (readState s ws k0 i) (ws (k0 + i))).2

theorem readState_shift (s : AsyncState) (ws : Nat → AsyncWorld) (k0 : Nat) :
    ∀ i, readState s ws k0 (i + 1)
      = readState ((asyncRead s (ws k0)).2) ws (k0 + 1) i := by
  intro i
  induction i with
  | zero => rfl
  | succ i ih =>
    have hstep : readState s ws k0 (i + 1 + 1)
        = (asyncRead (readState s ws k0 (i + 1)) (ws (k0 + (i + 1)))).2 := rfl
    rw [hstep, ih, show k0 + (i + 1) = k0 + 1 + i by omega]
    rfl

/-- An invocation of `Read` that returns a successful reply necessarily
reached the final read step, so it decremented the queued counter. -/
theorem asyncRead_ok_queued (s : AsyncState) (w : AsyncWorld) (r : Reply)
    (h : (asyncRead s w).1 = .ok r) :
    (asyncRead s w).2.queued = s.queued - 1 := by
  obtain ⟨buf, conn, queued⟩ := s
  rcases conn with _ | c
  · rcases hd : w.dial with e | c
    · simp [asyncRead, hd] at h
    · rcases hf : w.flushErr with _ | e <;>
        by_cases hb : buf = [] <;>
          simp_all [asyncRead, asyncReadFlush, List.length_pos]
  · rcases hf : w.flushErr with _ | e <;>
      by_cases hb : buf = [] <;>
        simp_all [asyncRead, asyncReadFlush, List.length_pos]

/-- Helper for C6: if the first `m` invocations of `Read` performed by
the loop succeed and the next one fails — whether at its dial, flush or
read step — the `ReadAll` loop returns that error (and by construction
no replies). -/
theorem readAllLoop_err (ws : Nat → AsyncWorld) (e : Err) :
    ∀ (m n : Nat) (s : AsyncState) (k0 : Nat) (acc : List Reply),
      s.queued = (n : Int) → m < n →
      (∀ i, i < m →
        ∃ r, (asyncRead (readState s ws k0 i) (ws (k0 + i))).1 = .ok r) →
      (asyncRead (readState s ws k0 m) (ws (k0 + m))).1 = .error e →
      (readAllLoop n s ws k0 acc).1 = .error e := by
  intro m
  induction m with
  | zero =>
    intro n s k0 acc hq hlt hsucc hfail
    obtain ⟨n', rfl⟩ : ∃ n', n = n' + 1 := ⟨n - 1, by omega⟩
    rw [show readState s ws k0 0 = s from rfl, Nat.add_zero] at hfail
    rcases hread : asyncRead s (ws k0) with ⟨res, s₁⟩
    rw [hread] at hfail
    rw [readAllLoop,
      if_pos (by rw [asyncQueued, hq]; exact_mod_cast Nat.succ_pos n'), hread]
    cases hfail
    rfl
  | succ m ih =>
    intro n s k0 acc hq hlt hsucc hfail
    obtain ⟨n', rfl⟩ : ∃ n', n = n' + 1 := ⟨n - 1, by omega⟩
    obtain ⟨r0, h0⟩ := hsucc 0 (by omega)
    rw [show readState s ws k0 0 = s from rfl, Nat.add_zero] at h0
    have hq1 : (asyncRead s (ws k0)).2.queued = (n' : Int) := by
      rw [asyncRead_ok_queued s (ws k0) r0 h0, hq]
      push_cast
      ring
    rcases hread : asyncRead s (ws k0) with ⟨res, s₁⟩
    rw [hread] at h0 hq1
    cases h0
    rw [readAllLoop,
      if_pos (by rw [asyncQueued, hq]; exact_mod_cast Nat.succ_pos n'), hread]
    show (readAllLoop n' s₁ ws (k0 + 1) (acc ++ [r0])).1 = Except.error e
    refine ih n' s₁ (k0 + 1) (acc ++ [r0]) hq1 (by omega) ?_ ?_
    · intro i hi
      obtain ⟨r, hr⟩ := hsucc (i + 1) (by omega)
      rw [readState_shift, hread,
        show k0 + (i + 1) = k0 + 1 + i by omega] at hr
      exact ⟨r, hr⟩
    · rw [readState_shift, hread,
        show k0 + (m + 1) = k0 + 1 + m by omega] at hfail
      exact hfail

/-- C6: for an `AsyncClient` with N queued commands, `ReadAll` invokes
`Read` while `Queued() > 0`, collecting replies in call order; if every
read goes through it returns all N replies in issue order with no error;
if the k-th `Read` fails (k < N) — at its dial step, its flush step or
its read/parse step, i.e. whenever `Read` run from the state the loop has
reached returns an error — `ReadAll` returns that error, and, the error
side of the result carrying no reply list, the k replies already
collected are discarded, exactly as the Go code returns `nil, e`. -/
theorem asyncReadAll_spec (s : AsyncState) (ws : Nat → AsyncWorld)
    (N : Nat) (f : Nat → Reply) (e : Err) (hq : s.queued = (N : Int)) :
    ((∀ i, i < N → dialOk (ws i).dial = true ∧ (ws i).flushErr = none
        ∧ (ws i).readResult = .ok (f i)) →
      (asyncReadAll s ws).1 = .ok ((List.range N).map f))
    ∧ (∀ k, k < N →
        (∀ i, i < k → ∃ r, (asyncRead (readState s ws 0 i) (ws i)).1 = .ok r) →
        (asyncRead (readState s ws 0 k) (ws k)).1 = .error e →
        (asyncReadAll s ws).1 = .error e) := by
  have htn : s.queued.toNat = N := by rw [hq]; simp
  constructor
  · intro hsucc
    obtain ⟨s', hs', -⟩ := readAllLoop_ok f ws N s 0 [] hq
      (fun i hi => by simpa using hsucc i hi)
    rw [asyncReadAll, htn, hs']
    simp
  · intro k hk hsucc hfail
    have := readAllLoop_err ws e k N s 0 [] hq hk
      (fun i hi => by
        obtain ⟨r, hr⟩ := hsucc i hi
        exact ⟨r, by simpa using hr⟩)
      (by simpa using hfail)
    rw [asyncReadAll, htn]
    exact this

/-- Witness for C6 at N = 2: with both reads succeeding, `ReadAll`
returns both replies in order; with the very first `Read` failing to
dial the lazy connection, `ReadAll` returns that dial error. -/
theorem asyncReadAll_spec_witness :
    (asyncReadAll ⟨[], none, 2⟩
        (fun i => ⟨.ok (5 : Nat), none, 0, .ok (Reply.integer i)⟩)).1
      = .ok ((List.range 2).map (fun i => Reply.integer i))
    ∧ (asyncReadAll ⟨[], none, 2⟩
        (fun _ => ⟨.error (.transport "refused"), none, 0, .ok Reply.nil⟩)).1
      = .error (.transport "refused") :=
  ⟨(asyncReadAll_spec ⟨[], none, 2⟩
      (fun i => ⟨.ok (5 : Nat), none, 0, .ok (Reply.integer i)⟩)
      2 (fun i => Reply.integer i) (.transport "refused") rfl).1
      (fun i _ => ⟨rfl, rfl, rfl⟩),
   (asyncReadAll_spec ⟨[], none, 2⟩
      (fun _ => ⟨.error (.transport "refused"), none, 0, .ok Reply.nil⟩)
      2 (fun i => Reply.integer i) (.transport "refused") rfl).2
      0 (by omega)
      (fun i hi => absurd hi (Nat.not_lt_zero i))
      rfl⟩

/-- The AUTH half of the handshake succeeds: no password is configured,
or the AUTH write went through and its reply read back without error. -/
def authPhaseOk (password : String) (w : HandshakeWorld) : Prop :=
  password = "" ∨ (w.authWriteErr = none ∧ ∃ r, connRead w.authStream = .ok r)

/-- The SELECT half of the handshake succeeds: the database index is
zero, or the SELECT write went through and its reply read back without
error. -/
def selPhaseOk (db : Int) (w : HandshakeWorld) : Prop :=
  db = 0 ∨ (w.selWriteErr = none ∧ ∃ r, connRead w.selStream = .ok r)

/-- Helper for C7: `selectPhase` appends exactly one SELECT command to
the log when `db ≠ 0` and nothing otherwise, regardless of outcomes. -/
theorem selectPhase_log (conn : ConnId) (db : Int) (log : List RCommand)
    (w : HandshakeWorld) :
    (selectPhase conn db log w).2
      = if db ≠ 0 then log ++ [("SELECT", [Arg.int db])] else log := by
  unfold selectPhase
  split
  · cases hw : w.selWriteErr <;> simp_all
    cases hr : connRead w.selStream <;> simp_all
  · simp_all

/-- Helper for C7: `selectPhase` hands the connection out iff its SELECT
half succeeds. -/
theorem selectPhase_ok (conn : ConnId) (db : Int) (log : List RCommand)
    (w : HandshakeWorld) :
    (∃ c, (selectPhase conn db log w).1 = .ok c) ↔ selPhaseOk db w := by
  unfold selectPhase selPhaseOk
  split
  · cases hw : w.selWriteErr
    · cases hr : connRead w.selStream <;> simp_all
    · simp_all
  · simp_all

/-- C7: during connection creation (`NewConn`, with the dial itself
succeeding), an AUTH command carrying the password is issued if and only
if the configured password is non-empty; a SELECT command carrying the
database index is issued if and only if the index is non-zero (once the
AUTH half did not abort the handshake); and a connection is returned to
the caller exactly when both halves succeed — any write failure or
failed/error reply makes `NewConn` return the error and no connection. -/
theorem newConn_handshake (db : Int) (password : String)
    (w : HandshakeWorld) (conn : ConnId) (hdial : w.dial = .ok conn) :
    (("AUTH", [Arg.text password]) ∈ (newConn db password w).2
      ↔ password ≠ "")
    ∧ (authPhaseOk password w →
        (("SELECT", [Arg.int db]) ∈ (newConn db password w).2 ↔ db ≠ 0))
    ∧ ((∃ c, (newConn db password w).1 = .ok c)
        ↔ (authPhaseOk password w ∧ selPhaseOk db w)) := by
  have hns : ("AUTH" : String) ≠ "SELECT" := by decide
  have hsn : ("SELECT" : String) ≠ "AUTH" := by decide
  have hred : newConn db password w
      = if password ≠ "" then
          match w.authWriteErr with
          | some e => (.error e, [("AUTH", [Arg.text password])])
          | none =>
            match connRead w.authStream with
            | .error e => (.error e, [("AUTH", [Arg.text password])])
            | .ok _ => selectPhase conn db [("AUTH", [Arg.text password])] w
        else selectPhase conn db [] w := by
    unfold newConn
    rw [hdial]
  rw [hred]
  by_cases hp : password = ""
  · rw [if_neg (by simp [hp])]
    refine ⟨?_, fun _ => ?_, ?_⟩
    · rw [selectPhase_log]
      split <;> simp_all [Prod.ext_iff]
    · rw [selectPhase_log]
      split <;> simp_all [Prod.ext_iff]
    · rw [selectPhase_ok]
      simp [authPhaseOk, hp]
  · rw [if_pos (by simp [hp])]
    cases hw : w.authWriteErr
    · cases hr : connRead w.authStream with
      | error e =>
        have hnok : ¬ authPhaseOk password w := by
          simp [authPhaseOk, hp, hw, hr]
        refine ⟨by simp [hp], fun h => absurd h hnok, ?_⟩
        constructor
        · rintro ⟨c, hc⟩
          cases hc
        · rintro ⟨h, -⟩
          exact absurd h hnok
      | ok r =>
        have hok : authPhaseOk password w := .inr ⟨hw, r, hr⟩
        refine ⟨?_, fun _ => ?_, ?_⟩
        · rw [selectPhase_log]
          split <;> simp [hp]
        · rw [selectPhase_log]
          split <;> simp_all [Prod.ext_iff]
        · rw [selectPhase_ok]
          simp [hok]
    · have hnok : ¬ authPhaseOk password w := by
        simp [authPhaseOk, hp, hw]
      refine ⟨by simp [hp], fun h => absurd h hnok, ?_⟩
      constructor
      · rintro ⟨c, hc⟩
        cases hc
      · rintro ⟨h, -⟩
        exact absurd h hnok

/-- Witness for C7 with password "pw" and database 3, both handshake
replies being `+OK`: AUTH and SELECT are both issued and a connection is
returned. -/
theorem newConn_handshake_witness :
    (("AUTH", [Arg.text "pw"])
        ∈ (newConn 3 "pw" ⟨.ok (4 : Nat), none, "+OK\r\n".data,
            none, "+OK\r\n".data⟩).2
      ↔ "pw" ≠ "")
    ∧ (authPhaseOk "pw" ⟨.ok (4 : Nat), none, "+OK\r\n".data,
          none, "+OK\r\n".data⟩ →
        (("SELECT", [Arg.int 3])
            ∈ (newConn 3 "pw" ⟨.ok (4 : Nat), none, "+OK\r\n".data,
                none, "+OK\r\n".data⟩).2
          ↔ (3 : Int) ≠ 0))
    ∧ ((∃ c, (newConn 3 "pw" ⟨.ok (4 : Nat), none, "+OK\r\n".data,
            none, "+OK\r\n".data⟩).1 = .ok c)
        ↔ (authPhaseOk "pw" ⟨.ok (4 : Nat), none, "+OK\r\n".data,
              none, "+OK\r\n".data⟩
            ∧ selPhaseOk 3 ⟨.ok (4 : Nat), none, "+OK\r\n".data,
                none, "+OK\r\n".data⟩)) :=
  newConn_handshake 3 "pw"
    ⟨.ok (4 : Nat), none, "+OK\r\n".data, none, "+OK\r\n".data⟩
    (4 : Nat) rfl
